import Mathlib

/-!
Verification of the fleet package lifecycle orchestrator
(teuthology/task/install.py) against its design specification.

The Python module is shallowly embedded below: pure computations become
Lean functions, the mutable module state and the remote command
executions become explicit parameters (association lists for dicts, an
oracle of exit codes for the command transport), and control flow with
exceptions becomes explicit result types or a small statement language.
Source line numbers refer to teuthology/task/install.py.
-/

/-- Association-list lookup, modelling Python dict lookup / dict.get
(keys are assumed distinct, as in a dict; the first binding wins). -/
def lookupKV {α : Type} : List (String × α) → String → Option α
  | [], _ => none
  | (a, b) :: rest, k => if a = k then some b else lookupKV rest k

/-- Association-list in-place update of an existing key, modelling a
mutation of the object a Python dict entry is bound to. -/
def updateKV {α : Type} : List (String × α) → String → α → List (String × α)
  | [], _, _ => []
  | (a, b) :: rest, k, v => if a = k then (a, v) :: rest else (a, b) :: updateKV rest k v

/-- Python truthiness of an optional string: None and the empty string
are falsy, any other string is truthy (the source tests values with
plain if tag: and friends). -/
def pyTruthy : Option String → Bool
  | none => false
  | some s => s != ""

/-- Embedding of _get_uri (install.py lines 91-106): pick the artifact
reference URI segment with precedence tag, then branch, then sha1, then
the ref/master default. -/
def get_uri (tag branch sha1 : Option String) : String :=
  if pyTruthy tag then "ref/" ++ tag.getD ""
  else if pyTruthy branch then "ref/" ++ branch.getD ""
  else if pyTruthy sha1 then "sha1/" ++ sha1.getD ""
  else "ref/master"

/-- Layered configuration, modelling the config dict consumed by
_get_config_value_for_remote (install.py lines 62-88): an optional
blanket "all" sub-map, per-role sub-maps, and flat top-level keys.
A non-mapping value where a mapping is required is a ConfigurationError
per the design (section 7) and is outside this model. -/
structure LayeredConfig where
  allMap : Option (List (String × String))
  roleMaps : List (String × List (String × String))
  flat : List (String × String)

/-- Embedding of the role loop of _get_config_value_for_remote
(install.py lines 84-87): walk the roles of the remote in declaration
order, returning the first value found in a role sub-map that is present
in the config and contains the key. -/
def roleLookup (cfg : List (String × List (String × String))) (key : String) :
    List String → Option String
  | [] => none
  | role :: rest =>
    match lookupKV cfg role with
    | some sub =>
      match lookupKV sub key with
      | some v => some v
      | none => roleLookup cfg key rest
    | none => roleLookup cfg key rest

/-- Embedding of _get_config_value_for_remote (install.py lines 62-88):
an "all" entry fully shadows everything, then the first matching role
sub-map, then the flat top-level key. -/
def get_config_value_for_remote (roles : List String) (config : LayeredConfig)
    (key : String) : Option String :=
  match config.allMap with
  | some m => lookupKV m key
  | none =>
    match roleLookup config.roleMaps key roles with
    | some v => some v
    | none => lookupKV config.flat key

/-- Whether a role has a sub-map present in the config that contains the
key (used by the specification-side resolver below). -/
def roleHasKey (cfg : List (String × List (String × String))) (key role : String) : Bool :=
  match lookupKV cfg role with
  | some sub => (lookupKV sub key).isSome
  | none => false

/-- Resolver written from the specification words (section 4.1): if the
layered config has an "all" entry, return all[key] even if absent inside
it; otherwise the first role in the remote's declared role order whose
sub-map is present and contains the key supplies the value; otherwise
the flat top-level value, else absence. -/
def resolveSpec (roles : List String) (config : LayeredConfig) (key : String) :
    Option String :=
  match config.allMap with
  | some m => lookupKV m key
  | none =>
    match roles.find? (roleHasKey config.roleMaps key) with
    | some r => lookupKV ((lookupKV config.roleMaps r).getD []) key
    | none => lookupKV config.flat key

lemma roleLookup_eq_find (cfg : List (String × List (String × String))) (key : String)
    (flat : List (String × String)) :
    ∀ roles : List String,
      (match roleLookup cfg key roles with
        | some v => some v
        | none => lookupKV flat key) =
      (match roles.find? (roleHasKey cfg key) with
        | some r => lookupKV ((lookupKV cfg r).getD []) key
        | none => lookupKV flat key) := by
  intro roles
  induction roles with
  | nil => simp [roleLookup]
  | cons r rs ih =>
    by_cases h : roleHasKey cfg key r = true
    · have hfind : (r :: rs).find? (roleHasKey cfg key) = some r := by
        simp [List.find?, h]
      rw [hfind]
      unfold roleHasKey at h
      match hc : lookupKV cfg r with
      | some sub =>
        rw [hc] at h
        simp only at h
        obtain ⟨v, hk⟩ := Option.isSome_iff_exists.mp h
        simp [roleLookup, hc, hk]
      | none => rw [hc] at h; simp at h
    · have hfind : (r :: rs).find? (roleHasKey cfg key) = rs.find? (roleHasKey cfg key) := by
        simp [List.find?, Bool.eq_false_iff.mpr h]
      rw [hfind, ← ih]
      unfold roleHasKey at h
      match hc : lookupKV cfg r with
      | some sub =>
        rw [hc] at h
        simp only at h
        have hk : lookupKV sub key = none := by
          cases hkk : lookupKV sub key with
          | none => rfl
          | some v => rw [hkk] at h; simp at h
        simp [roleLookup, hc, hk]
      | none => simp [roleLookup, hc]

/-- C2: for every layered config, remote and key, config resolution
returns all[key] whenever an "all" entry exists (absence included, even
when a role sub-map or a flat key would supply a value); otherwise the
value from the first role in the remote's declared role order whose
sub-map is present and contains the key; otherwise the flat top-level
value, else absence. Stated as: the embedded source resolver coincides
with the resolver written from the specification words. -/
theorem get_config_value_matches_spec (roles : List String) (config : LayeredConfig)
    (key : String) :
    get_config_value_for_remote roles config key = resolveSpec roles config key := by
  unfold get_config_value_for_remote resolveSpec
  match config.allMap with
  | some m => rfl
  | none => exact roleLookup_eq_find config.roleMaps key config.flat roles

/-- C3: artifact reference resolution selects exactly one URI segment
with precedence tag over branch over sha1 over the default: ref/tag when
tag is present (a non-empty value, per the source truthiness tests),
else ref/branch, else sha1/sha1, else ref/master. -/
theorem get_uri_precedence (tag branch sha1 : Option String) :
    (pyTruthy tag = true → get_uri tag branch sha1 = "ref/" ++ tag.getD "") ∧
    (pyTruthy tag = false → pyTruthy branch = true →
      get_uri tag branch sha1 = "ref/" ++ branch.getD "") ∧
    (pyTruthy tag = false → pyTruthy branch = false → pyTruthy sha1 = true →
      get_uri tag branch sha1 = "sha1/" ++ sha1.getD "") ∧
    (pyTruthy tag = false → pyTruthy branch = false → pyTruthy sha1 = false →
      get_uri tag branch sha1 = "ref/master") := by
  refine ⟨?_, ?_, ?_, ?_⟩ <;> intros <;> simp_all [get_uri]

/-- Witness for C3 at the concrete inputs of the testable property:
tag "t", branch "b", sha1 "s". -/
theorem get_uri_precedence_witness :
    get_uri (some "t") (some "b") (some "s") = "ref/t" ∧
    get_uri none (some "b") (some "s") = "ref/b" ∧
    get_uri none none (some "s") = "sha1/s" ∧
    get_uri none none none = "ref/master" := by
  refine ⟨?_, ?_, ?_, ?_⟩
  · exact ((get_uri_precedence (some "t") (some "b") (some "s")).1 (by decide)).trans (by decide)
  · exact ((get_uri_precedence none (some "b") (some "s")).2.1 (by decide) (by decide)).trans
      (by decide)
  · exact ((get_uri_precedence none none (some "s")).2.2.1 (by decide) (by decide)
      (by decide)).trans (by decide)
  · exact (get_uri_precedence none none none).2.2.2 (by decide) (by decide) (by decide)

/-- Index of the first occurrence of a character in a list, or none,
mirroring the search done by Python str.find. -/
def findIdxC (c : Char) : List Char → Option Nat
  | [] => none
  | a :: t => if a = c then some 0 else (findIdxC c t).map (· + 1)

/-- Python str.find: the index of the first occurrence, or -1. -/
def pyFindChar (l : List Char) (c : Char) : Int :=
  match findIdxC c l with
  | some i => (i : Int)
  | none => -1

/-- Python slice s[0:j] over a character list: a negative j counts from
the end of the list (clamped at 0), a nonnegative j is clamped at the
length. -/
def pySliceTo (l : List Char) (j : Int) : List Char :=
  if j < 0 then l.take (l.length - (-j).toNat) else l.take j.toNat

/-- Python s[0:s.find(c)], the idiom used on release strings by
_get_baseurlinfo_and_dist (install.py lines 149 and 161). -/
def cutAtFirst (l : List Char) (c : Char) : List Char :=
  pySliceTo l (pyFindChar l c)

/-- Python str.replace for single characters (install.py line 156). -/
def pyReplaceChar (l : List Char) (o n : Char) : List Char :=
  l.map (fun a => if a = o then n else a)

lemma findIdxC_eq_none (c : Char) :
    ∀ l : List Char, findIdxC c l = none ↔ l.contains c = false := by
  intro l
  induction l with
  | nil => simp [findIdxC]
  | cons a t ih =>
    by_cases h : a = c
    · simp [findIdxC, h]
    · simp [findIdxC, h, ih, Ne.symm h]

lemma take_findIdxC (c : Char) :
    ∀ (l : List Char) (i : Nat), findIdxC c l = some i →
      l.take i = l.takeWhile (fun a => a != c) := by
  intro l
  induction l with
  | nil => intro i h; simp [findIdxC] at h
  | cons a t ih =>
    intro i h
    by_cases hac : a = c
    · simp [findIdxC, hac] at h
      subst h
      simp [List.takeWhile, hac]
    · simp [findIdxC, hac] at h
      obtain ⟨j, hj, hij⟩ := h
      subst hij
      have hbne : (a != c) = true := by simp [hac]
      simp [List.take, List.takeWhile, hbne, ih j hj]

/-- When the character occurs in the list, the Python s[0:s.find(c)]
idiom yields exactly the segment before its first occurrence. -/
lemma cutAtFirst_of_contains (c : Char) (l : List Char) (h : l.contains c = true) :
    cutAtFirst l c = l.takeWhile (fun a => a != c) := by
  cases hf : findIdxC c l with
  | none => rw [(findIdxC_eq_none c l).mp hf] at h; simp at h
  | some i =>
    unfold cutAtFirst pyFindChar pySliceTo
    rw [hf]
    simp [take_findIdxC c l i hf]

/-- When the character does not occur, s.find returns -1 and the Python
slice s[0:-1] silently drops the last character. -/
lemma cutAtFirst_of_not_contains (c : Char) (l : List Char) (h : l.contains c = false) :
    cutAtFirst l c = l.dropLast := by
  unfold cutAtFirst pyFindChar pySliceTo
  rw [(findIdxC_eq_none c l).mpr h]
  simp [List.dropLast_eq_take]

/-- The distro-dependent part of the result of _get_baseurlinfo_and_dist
(install.py lines 146-175). -/
structure BaseUrlInfo where
  dist : String
  distro_release : Option String
  dist_release : Option String
deriving DecidableEq

/-- Embedding of the distro-mapping branch of _get_baseurlinfo_and_dist
(install.py lines 146-175). The inputs are the trimmed outputs of the
three probes run on the remote: the distributor id, the release string,
and the short codename (the latter only probed in the fallback branch). -/
def get_baseurlinfo_and_dist (distro relval codename : String) : BaseUrlInfo :=
  if distro = "CentOS" then
    let major := cutAtFirst relval.toList '.'
    let dr := "centos" ++ String.mk major
    { dist := dr, distro_release := some dr,
      dist_release := some ("el" ++ String.mk major) }
  else if distro = "RedHatEnterpriseServer" then
    let rv := pyReplaceChar relval.toList '.' '_'
    let dr := "rhel" ++ String.mk rv
    let short := cutAtFirst rv '_'
    { dist := dr, distro_release := some dr,
      dist_release := some ("el" ++ String.mk short) }
  else if distro = "Fedora" then
    let dr := "fc" ++ relval
    { dist := dr, distro_release := some dr, dist_release := some dr }
  else
    { dist := codename, distro_release := none, dist_release := none }

/-- C5: distro detection maps CentOS release R (with R containing a dot,
so that "the substring before the first dot" exists) to centosMAJOR /
elMAJOR, RedHatEnterpriseServer release R (with an underscore in the
dot-to-underscore normalisation) to rhelR_WITH_UNDERSCORES / elMAJOR,
Fedora release R to fcR across all three fields, and any other distro to
the short codename with both release fields absent. -/
theorem distro_mapping (relval codename : String) :
    (relval.toList.contains '.' = true →
      get_baseurlinfo_and_dist "CentOS" relval codename =
        { dist := "centos" ++ String.mk (relval.toList.takeWhile (fun a => a != '.')),
          distro_release :=
            some ("centos" ++ String.mk (relval.toList.takeWhile (fun a => a != '.'))),
          dist_release :=
            some ("el" ++ String.mk (relval.toList.takeWhile (fun a => a != '.'))) }) ∧
    ((pyReplaceChar relval.toList '.' '_').contains '_' = true →
      get_baseurlinfo_and_dist "RedHatEnterpriseServer" relval codename =
        { dist := "rhel" ++ String.mk (pyReplaceChar relval.toList '.' '_'),
          distro_release :=
            some ("rhel" ++ String.mk (pyReplaceChar relval.toList '.' '_')),
          dist_release :=
            some ("el" ++ String.mk
              ((pyReplaceChar relval.toList '.' '_').takeWhile (fun a => a != '_'))) }) ∧
    (get_baseurlinfo_and_dist "Fedora" relval codename =
      { dist := "fc" ++ relval, distro_release := some ("fc" ++ relval),
        dist_release := some ("fc" ++ relval) }) ∧
    (∀ distro : String, distro ≠ "CentOS" → distro ≠ "RedHatEnterpriseServer" →
      distro ≠ "Fedora" →
      get_baseurlinfo_and_dist distro relval codename =
        { dist := codename, distro_release := none, dist_release := none }) := by
  refine ⟨?_, ?_, ?_, ?_⟩
  · intro h
    have h2 := cutAtFirst_of_contains _ _ h
    simp only [String.toList] at h2
    simp [get_baseurlinfo_and_dist, h2]
  · intro h
    have h2 := cutAtFirst_of_contains _ _ h
    simp only [String.toList] at h2
    simp [get_baseurlinfo_and_dist, h2]
  · simp [get_baseurlinfo_and_dist]
  · intro distro h1 h2 h3
    simp [get_baseurlinfo_and_dist, h1, h2, h3]

/-- Witness for C5 at the specification's concrete examples: CentOS
release 7.6 yields centos7 / el7, RedHatEnterpriseServer release 7.6
yields rhel7_6 / el7, Fedora release 20 yields fc20, and Ubuntu falls
back to the codename probe. -/
theorem distro_mapping_witness :
    ("7.6".toList.contains '.' = true) ∧
    get_baseurlinfo_and_dist "CentOS" "7.6" "na" =
      { dist := "centos7", distro_release := some "centos7",
        dist_release := some "el7" } ∧
    ((pyReplaceChar "7.6".toList '.' '_').contains '_' = true) ∧
    get_baseurlinfo_and_dist "RedHatEnterpriseServer" "7.6" "na" =
      { dist := "rhel7_6", distro_release := some "rhel7_6",
        dist_release := some "el7" } ∧
    get_baseurlinfo_and_dist "Fedora" "20" "na" =
      { dist := "fc20", distro_release := some "fc20",
        dist_release := some "fc20" } ∧
    get_baseurlinfo_and_dist "Ubuntu" "13.04" "raring" =
      { dist := "raring", distro_release := none, dist_release := none } := by
  refine ⟨by decide, ?_, by decide, ?_, ?_, ?_⟩
  · exact ((distro_mapping "7.6" "na").1 (by decide)).trans (by decide)
  · exact ((distro_mapping "7.6" "na").2.1 (by decide)).trans (by decide)
  · exact ((distro_mapping "20" "na").2.2.1).trans (by decide)
  · exact (distro_mapping "13.04" "raring").2.2.2 "Ubuntu" (by decide) (by decide) (by decide)

/-- C10: when the CentOS release string has no dot, or the normalised
RedHatEnterpriseServer release string has no underscore, str.find
returns -1 and the slice s[0:-1] drops the last character of the release
string instead of using the whole string as the major version. -/
theorem distro_mapping_no_separator (relval codename : String) :
    (relval.toList.contains '.' = false →
      get_baseurlinfo_and_dist "CentOS" relval codename =
        { dist := "centos" ++ String.mk relval.toList.dropLast,
          distro_release := some ("centos" ++ String.mk relval.toList.dropLast),
          dist_release := some ("el" ++ String.mk relval.toList.dropLast) }) ∧
    ((pyReplaceChar relval.toList '.' '_').contains '_' = false →
      get_baseurlinfo_and_dist "RedHatEnterpriseServer" relval codename =
        { dist := "rhel" ++ String.mk (pyReplaceChar relval.toList '.' '_'),
          distro_release :=
            some ("rhel" ++ String.mk (pyReplaceChar relval.toList '.' '_')),
          dist_release :=
            some ("el" ++ String.mk (pyReplaceChar relval.toList '.' '_').dropLast) }) := by
  constructor
  · intro h
    have h2 := cutAtFirst_of_not_contains _ _ h
    simp only [String.toList] at h2
    simp [get_baseurlinfo_and_dist, h2]
  · intro h
    have h2 := cutAtFirst_of_not_contains _ _ h
    simp only [String.toList] at h2
    simp [get_baseurlinfo_and_dist, h2]

/-- Witness for C10 at the claim's concrete input: CentOS release 7
yields distro_release centos and dist_release el (not centos7 / el7),
and RedHatEnterpriseServer release 7 yields rhel7 but dist_release el. -/
theorem distro_mapping_no_separator_witness :
    ("7".toList.contains '.' = false) ∧
    get_baseurlinfo_and_dist "CentOS" "7" "na" =
      { dist := "centos", distro_release := some "centos", dist_release := some "el" } ∧
    ((pyReplaceChar "7".toList '.' '_').contains '_' = false) ∧
    get_baseurlinfo_and_dist "RedHatEnterpriseServer" "7" "na" =
      { dist := "rhel7", distro_release := some "rhel7", dist_release := some "el" } := by
  refine ⟨by decide, ?_, by decide, ?_⟩
  · exact ((distro_mapping_no_separator "7" "na").1 (by decide)).trans (by decide)
  · exact ((distro_mapping_no_separator "7" "na").2 (by decide)).trans (by decide)

/-- Python str.strip: drop the whitespace at both ends (implemented
over the character list so that it evaluates by kernel reduction). -/
def pyStrip (s : String) : String :=
  String.mk (((s.toList.dropWhile Char.isWhitespace).reverse.dropWhile
    Char.isWhitespace).reverse)

/-- Outcome of the version poller: the resolved version together with
the log of sleeps performed (15 time-units each), or the VersionNotFound
failure carrying the base URL it was probing, or exhaustion of the
observation fuel (the source loop has no bound of its own). -/
inductive PollResult where
  | ok (version : String) (sleeps : List Nat)
  | versionNotFound (url : String) (sleeps : List Nat)
  | outOfFuel
deriving DecidableEq

/-- Embedding of _block_looking_for_package_version (install.py lines
222-245): fetch baseUrl/version through the transport; a non-zero exit
either sleeps 15 and retries (wait true) or raises VersionNotFound with
the base URL (wait false); a zero exit returns the stripped marker body.
The transport is an oracle from the attempt number to the exit code and
captured stdout of the wget run; fuel bounds how many attempts we
observe. -/
def block_looking_for_package_version (fetch : Nat → Nat × String) (baseUrl : String)
    (wait : Bool) : Nat → Nat → List Nat → PollResult
  | 0, _, _ => PollResult.outOfFuel
  | fuel + 1, attempt, sleeps =>
    let r := fetch attempt
    if r.1 ≠ 0 then
      if wait then
        block_looking_for_package_version fetch baseUrl wait fuel (attempt + 1)
          (sleeps ++ [15])
      else PollResult.versionNotFound baseUrl sleeps
    else PollResult.ok (pyStrip r.2) sleeps

lemma block_looking_wait_aux (fetch : Nat → Nat × String) (baseUrl : String) :
    ∀ (n fuel attempt : Nat) (sleeps : List Nat),
      (∀ i, i < n → (fetch (attempt + i)).1 ≠ 0) → (fetch (attempt + n)).1 = 0 →
      n < fuel →
      block_looking_for_package_version fetch baseUrl true fuel attempt sleeps =
        PollResult.ok (pyStrip (fetch (attempt + n)).2) (sleeps ++ List.replicate n 15) := by
  intro n
  induction n with
  | zero =>
    intro fuel attempt sleeps hlt hok hfuel
    match fuel, hfuel with
    | fuel + 1, _ =>
      simp only [block_looking_for_package_version]
      rw [if_neg]
      · simp
      · simpa using hok
  | succ n ih =>
    intro fuel attempt sleeps hlt hok hfuel
    match fuel, hfuel with
    | fuel + 1, hfuel =>
      have h0 : (fetch attempt).1 ≠ 0 := by simpa using hlt 0 (Nat.succ_pos n)
      simp only [block_looking_for_package_version]
      rw [if_pos (by simpa using h0)]
      simp only [if_true]
      have hlt2 : ∀ i, i < n → (fetch (attempt + 1 + i)).1 ≠ 0 := by
        intro i hi
        have := hlt (i + 1) (by omega)
        have harith : attempt + (i + 1) = attempt + 1 + i := by omega
        rwa [harith] at this
      have hok2 : (fetch (attempt + 1 + n)).1 = 0 := by
        have harith : attempt + (n + 1) = attempt + 1 + n := by omega
        rwa [harith] at hok
      have := ih fuel (attempt + 1) (sleeps ++ [15]) hlt2 hok2 (by omega)
      rw [this]
      have harith : attempt + 1 + n = attempt + (n + 1) := by omega
      rw [harith, List.append_assoc]
      simp [List.replicate_succ]

/-- C4: with wait false, a non-zero marker fetch fails immediately with
VersionNotFound carrying the probed base URL, performing zero sleeps and
no retries; with wait true, the poller sleeps 15 time-units after each
failing fetch, and the first succeeding fetch (the n-th, after n
failures) yields the marker content stripped of surrounding whitespace
with exactly n sleeps of 15 recorded. -/
theorem poll_version_behavior (fetch : Nat → Nat × String) (baseUrl : String) :
    ((fetch 0).1 ≠ 0 → ∀ fuel : Nat,
      block_looking_for_package_version fetch baseUrl false (fuel + 1) 0 [] =
        PollResult.versionNotFound baseUrl []) ∧
    (∀ n fuel : Nat, (∀ i, i < n → (fetch i).1 ≠ 0) → (fetch n).1 = 0 → n < fuel →
      block_looking_for_package_version fetch baseUrl true fuel 0 [] =
        PollResult.ok (pyStrip (fetch n).2) (List.replicate n 15)) := by
  constructor
  · intro h fuel
    simp only [block_looking_for_package_version]
    rw [if_pos (by simpa using h)]
    simp
  · intro n fuel hlt hok hfuel
    have := block_looking_wait_aux fetch baseUrl n fuel 0 [] (by simpa using hlt)
      (by simpa using hok) hfuel
    simpa using this

/-- Transport oracle for the C4 witness: every fetch fails. -/
def fetchAlwaysFails : Nat → Nat × String := fun _ => (8, "")

/-- Transport oracle for the C4 witness: two failing fetches, then a
fetch that succeeds with a padded marker body. -/
def fetchTwoFailures : Nat → Nat × String := fun i =>
  if i < 2 then (1, "") else (0, "  0.67-240-g67a95b9-1raring\n")

/-- Witness for C4: with wait false the first failing fetch produces
VersionNotFound with no sleeps; with wait true, two failures followed by
a success produce the trimmed marker content after exactly two sleeps of
15 time-units. -/
theorem poll_version_behavior_witness :
    block_looking_for_package_version fetchAlwaysFails "http://gb/ceph-deb" false 5 0 [] =
      PollResult.versionNotFound "http://gb/ceph-deb" [] ∧
    block_looking_for_package_version fetchTwoFailures "http://gb/ceph-deb" true 9 0 [] =
      PollResult.ok "0.67-240-g67a95b9-1raring" [15, 15] := by
  constructor
  · exact (poll_version_behavior fetchAlwaysFails "http://gb/ceph-deb").1 (by decide) 4
  · exact ((poll_version_behavior fetchTwoFailures "http://gb/ceph-deb").2 2 9
      (by decide) (by decide) (by decide)).trans (by decide)

/-- Observable operations dispatched on remotes by the lifecycle
(install.py: install_packages, remove_packages, remove_sources,
purge_data). -/
inductive Event where
  | installPkgs (remote : String)
  | removePkgs (remote : String)
  | removeSrc (remote : String) (proj : String)
  | purgeData (remote : String)
deriving DecidableEq

/-- A miniature statement language for the control flow of the install
context manager: sequential composition, the caller's usage window (the
yield, which may raise), a try/finally block, and a conditional. -/
inductive Stmt where
  | skip
  | emit (e : Event)
  | window
  | seq (a b : Stmt)
  | tryFinallyBlock (body fin : Stmt)
  | whenCond (c : Bool) (s : Stmt)

/-- Execution of a statement given whether the caller's usage window
raises: returns the trace of dispatched events and whether an exception
is propagating on exit. A raise aborts the rest of a sequence; a finally
block runs whether or not its body raised, after which the body's
exception (if any) resumes propagating, as in Python. -/
def execStmt (windowRaises : Bool) : Stmt → List Event × Bool
  | Stmt.skip => ([], false)
  | Stmt.emit e => ([e], false)
  | Stmt.window => ([], windowRaises)
  | Stmt.seq a b =>
    let ra := execStmt windowRaises a
    if ra.2 then ra
    else
      let rb := execStmt windowRaises b
      (ra.1 ++ rb.1, rb.2)
  | Stmt.tryFinallyBlock body fin =>
    let rb := execStmt windowRaises body
    let rf := execStmt windowRaises fin
    (rb.1 ++ rf.1, rb.2 || rf.2)
  | Stmt.whenCond c s => if c then execStmt windowRaises s else ([], false)

/-- Sequence a list of statements. -/
def seqAll (l : List Stmt) : Stmt := l.foldr Stmt.seq Stmt.skip

/-- Embedding of install_packages (install.py lines 745-757): one
install dispatch per remote of the cluster. -/
def install_packages_stmt (remotes : List String) : Stmt :=
  seqAll (remotes.map (fun r => Stmt.emit (Event.installPkgs r)))

/-- Embedding of remove_packages (install.py lines 562-574): one remove
dispatch per remote of the cluster. -/
def remove_packages_stmt (remotes : List String) : Stmt :=
  seqAll (remotes.map (fun r => Stmt.emit (Event.removePkgs r)))

/-- Embedding of remove_sources (install.py lines 523-538): for every
remote, a source removal for the configured project and one for the
fixed secondary project name calamari. -/
def remove_sources_stmt (remotes : List String) (project : String) : Stmt :=
  seqAll (remotes.map (fun r =>
    Stmt.seq (Stmt.emit (Event.removeSrc r project))
      (Stmt.emit (Event.removeSrc r "calamari"))))

/-- Embedding of purge_data (install.py lines 412-420): one purge of
/var/lib/ceph per remote. -/
def purge_data_stmt (remotes : List String) : Stmt :=
  seqAll (remotes.map (fun r => Stmt.emit (Event.purgeData r)))

/-- Embedding of the install context manager (install.py lines 760-813):
install_packages, then the caller's usage window inside try, with the
finally block running remove_packages, then remove_sources, then (only
for project ceph) purge_data. -/
def install_stmt (project : String) (remotes : List String) : Stmt :=
  Stmt.seq (install_packages_stmt remotes)
    (Stmt.tryFinallyBlock Stmt.window
      (Stmt.seq (remove_packages_stmt remotes)
        (Stmt.seq (remove_sources_stmt remotes project)
          (Stmt.whenCond (project = "ceph") (purge_data_stmt remotes)))))

lemma execStmt_seqAll_emit {α : Type} (w : Bool) (f : α → Event) (l : List α) :
    execStmt w (seqAll (l.map (fun r => Stmt.emit (f r)))) = (l.map f, false) := by
  induction l with
  | nil => simp [seqAll, execStmt]
  | cons a t ih =>
    simp only [List.map_cons, seqAll, List.foldr_cons] at ih ⊢
    simp [execStmt, ih]

lemma execStmt_remove_sources (w : Bool) (remotes : List String) (project : String) :
    execStmt w (remove_sources_stmt remotes project) =
      (remotes.flatMap (fun r => [Event.removeSrc r project, Event.removeSrc r "calamari"]),
        false) := by
  unfold remove_sources_stmt
  induction remotes with
  | nil => simp [seqAll, execStmt]
  | cons a t ih =>
    simp only [List.map_cons, seqAll, List.foldr_cons] at ih ⊢
    simp [execStmt, ih]

/-- C1: once the install phase has completed and control entered the
caller's usage window, the teardown runs on exit from that window
whether the window exits normally or by raising (and in the latter case
the exception resumes propagating afterwards): first package removal on
every remote, then source removal for the project and for the fixed
secondary project calamari on every remote, then, exactly when the
project is ceph, the /var/lib/ceph purge on every remote, in that
order. -/
theorem install_teardown_always_runs (project : String) (remotes : List String)
    (windowRaises : Bool) :
    execStmt windowRaises (install_stmt project remotes) =
      (remotes.map Event.installPkgs ++
        (remotes.map Event.removePkgs ++
          (remotes.flatMap
              (fun r => [Event.removeSrc r project, Event.removeSrc r "calamari"]) ++
            (if project = "ceph" then remotes.map Event.purgeData else []))),
        windowRaises) := by
  unfold install_stmt install_packages_stmt remove_packages_stmt purge_data_stmt
  by_cases hp : project = "ceph" <;>
    simp [execStmt, execStmt_seqAll_emit, execStmt_remove_sources, hp]

/-- The package-manager implementations present in the module that the
fan-out helpers can dispatch (the second definition of
_update_rpm_package_list_and_install, install.py line 717, shadows the
yum one at line 371, so the name is bound to the zypper variant; the deb
variant exists at line 260 but nothing in the lifecycle dispatches it). -/
inductive PkgImpl where
  | updateDebPackageListAndInstall
  | updateRpmPackageListAndInstall
  | removeRpm
  | removeSourcesListRpm
deriving DecidableEq

/-- The package-manager family whose tooling an implementation drives:
the deb variant runs apt; the three live dispatched implementations run
zypper exclusively, the suse family tool. -/
def implFamily : PkgImpl → String
  | PkgImpl.updateDebPackageListAndInstall => "deb"
  | PkgImpl.updateRpmPackageListAndInstall => "suse"
  | PkgImpl.removeRpm => "suse"
  | PkgImpl.removeSourcesListRpm => "suse"

/-- Embedding of the spawn in install_packages (install.py lines
753-757): for each remote of the cluster, whatever its detected system
type, the spawned action is _update_rpm_package_list_and_install; the
loop never branches on the remote. -/
def install_dispatch (systemType : String) : PkgImpl :=
  PkgImpl.updateRpmPackageListAndInstall

/-- Embedding of the spawn in remove_packages (install.py lines
570-574): the spawned action is _remove_rpm for every remote; the
detected system type is used only to index the package map. -/
def remove_dispatch (systemType : String) : PkgImpl :=
  PkgImpl.removeRpm

/-- Embedding of the spawns in remove_sources (install.py lines
532-538): the spawned action is _remove_sources_list_rpm for every
remote; the detected system type is computed and unused. -/
def remove_sources_dispatch (systemType : String) : PkgImpl :=
  PkgImpl.removeSourcesListRpm

/-- The argument computation pkgs[system_type] of the remove_packages
spawn (install.py line 574): none models the KeyError Python raises when
the detected system type is not a key of the package map. -/
def remove_packages_spawn (systemType : String) (pkgs : List (String × List String)) :
    Option (PkgImpl × List String) :=
  (lookupKV pkgs systemType).map (fun l => (PkgImpl.removeRpm, l))

/-- Counterexample to C6 at the concrete input of a remote whose
detected package-manager family is deb: the dispatched install, remove
and removeSources implementations are all the zypper ones, not the deb
family's, and with the remove map built by install (which has only an
rpm key) the remove spawn raises KeyError for a deb remote. -/
theorem dispatch_counterexample :
    implFamily (install_dispatch "deb") ≠ "deb" ∧
    install_dispatch "deb" = PkgImpl.updateRpmPackageListAndInstall ∧
    remove_dispatch "deb" = PkgImpl.removeRpm ∧
    remove_sources_dispatch "deb" = PkgImpl.removeSourcesListRpm ∧
    remove_packages_spawn "deb" [("rpm", ["ceph"])] = none := by
  refine ⟨by decide, rfl, rfl, rfl, ?_⟩
  simp [remove_packages_spawn, lookupKV]

/-- C6 amended: the install, remove and removeSources fan-out helpers
dispatch the same zypper-family implementations to every remote
regardless of its detected package-manager family; the detected system
type is used only to select the remove-stage package list, and whenever
that lookup succeeds the implementation run is still the zypper
remover. -/
theorem dispatch_always_zypper (systemType : String) :
    install_dispatch systemType = PkgImpl.updateRpmPackageListAndInstall ∧
    remove_dispatch systemType = PkgImpl.removeRpm ∧
    remove_sources_dispatch systemType = PkgImpl.removeSourcesListRpm ∧
    implFamily (install_dispatch systemType) = "suse" ∧
    (∀ pkgs : List (String × List String),
      (remove_packages_spawn systemType pkgs).map Prod.fst =
        (lookupKV pkgs systemType).map (fun x => PkgImpl.removeRpm)) := by
  refine ⟨rfl, rfl, rfl, rfl, ?_⟩
  intro pkgs
  cases h : lookupKV pkgs systemType <;> simp [remove_packages_spawn, h]

/-- One remote command as issued by this module: its displayed name,
whether its argv is guarded by a trailing shell or-true, and whether the
transport checks the exit status (remote.run default; the module passes
check_status=False only where noted). -/
structure RCmd where
  cname : String
  orTrue : Bool
  checkStatus : Bool

/-- Exit code observed by the transport: a trailing or-true forces 0
whatever the underlying command returned. -/
def observedExit (underlying : Nat) (c : RCmd) : Nat :=
  if c.orTrue then 0 else underlying

/-- Run a command sequence against an oracle of underlying exit codes
(indexed from the given position): the first status-checked command
whose observed exit is non-zero raises CommandFailedError, aborting the
rest, as remote.run does. -/
def runSeq (exits : Nat → Nat) : List RCmd → Nat → Except String Unit
  | [], _ => Except.ok ()
  | c :: rest, i =>
    if c.checkStatus ∧ observedExit (exits i) c ≠ 0 then Except.error c.cname
    else runSeq exits rest (i + 1)

/-- Embedding of the command sequence of _remove_sources_list_rpm
(install.py lines 452-517): every command of the function carries a
trailing or-true guard (with an extra ceph_extras removal exactly when
the project is ceph). -/
def remove_sources_list_rpm_cmds (proj : String) : List RCmd :=
  [{ cname := "zypper rm packages -r " ++ proj, orTrue := true, checkStatus := true }] ++
  (if proj = "ceph" then
    [{ cname := "zypper rm packages -r ceph_extras", orTrue := true, checkStatus := true }]
  else []) ++
  [{ cname := "rm -f /etc/zypp/repos.d/" ++ proj ++ ".repo", orTrue := true,
      checkStatus := true },
    { cname := "rm -fr /var/lib/" ++ proj, orTrue := true, checkStatus := true },
    { cname := "rm -fr /var/log/" ++ proj, orTrue := true, checkStatus := true }]

/-- Embedding of the loop of _remove_rpm (install.py lines 545-558): one
zypper remove per package, status-checked and without any or-true guard
(the captured stderr is never consulted). -/
def remove_rpm_cmds (rpm : List String) : List RCmd :=
  rpm.map (fun pkg =>
    { cname := "zypper remove " ++ pkg, orTrue := false, checkStatus := true })

/-- Exit behaviour of the external zypper tool on a remove request, per
its documentation: removing a package that is not installed reports
ZYPPER_EXIT_INF_CAP_NOT_FOUND (104); removing an installed one exits 0. -/
def zypperRemoveExit (installed : List String) (pkg : String) : Nat :=
  if installed.contains pkg then 0 else 104

/-- Counterexample to C7 at a concrete input: on a remote with nothing
installed, removing the single listed package ceph-fuse makes the
underlying zypper remove exit 104, and _remove_rpm propagates the
failure (CommandFailedError on that command) instead of succeeding as a
no-op. -/
theorem remove_rpm_counterexample :
    runSeq (fun i => zypperRemoveExit [] "ceph-fuse") (remove_rpm_cmds ["ceph-fuse"]) 0 =
      Except.error "zypper remove ceph-fuse" := by
  rfl

lemma runSeq_all_orTrue (exits : Nat → Nat) :
    ∀ (cmds : List RCmd) (i : Nat), (∀ c ∈ cmds, c.orTrue = true) →
      runSeq exits cmds i = Except.ok () := by
  intro cmds
  induction cmds with
  | nil => intro i h; rfl
  | cons c rest ih =>
    intro i h
    have hc : c.orTrue = true := h c (List.mem_cons_self c rest)
    have hrest : ∀ x ∈ rest, x.orTrue = true := fun x hx => h x (List.mem_cons_of_mem c hx)
    simp [runSeq, observedExit, hc, ih (i + 1) hrest]

lemma runSeq_unguarded (exits : Nat → Nat) (f : String → RCmd)
    (hf : ∀ p, (f p).orTrue = false ∧ (f p).checkStatus = true) :
    ∀ (pkgs : List String) (i : Nat),
      runSeq exits (pkgs.map f) i = Except.ok () ↔ ∀ j, j < pkgs.length → exits (i + j) = 0 := by
  intro pkgs
  induction pkgs with
  | nil => intro i; simp [runSeq]
  | cons p rest ih =>
    intro i
    obtain ⟨ho, hcheck⟩ := hf p
    by_cases hx : exits i = 0
    · have : ¬((f p).checkStatus ∧ observedExit (exits i) (f p) ≠ 0) := by
        simp [observedExit, ho, hx]
      simp only [List.map_cons, runSeq, if_neg this]
      rw [ih (i + 1)]
      constructor
      · intro hall j hj
        match j with
        | 0 => simpa using hx
        | j + 1 =>
          have := hall j (by simpa using hj)
          rwa [show i + 1 + j = i + (j + 1) by omega] at this
      · intro hall j hj
        have := hall (j + 1) (by simpa using hj)
        rwa [show i + (j + 1) = i + 1 + j by omega] at this
    · have : (f p).checkStatus ∧ observedExit (exits i) (f p) ≠ 0 := by
        simp [observedExit, ho, hcheck, hx]
      simp only [List.map_cons, runSeq, if_pos this]
      constructor
      · intro hcontr; cases hcontr
      · intro hall
        exact absurd (by simpa using hall 0 (Nat.succ_pos rest.length)) hx

/-- C7 amended: removeSources tolerates absence — every command of
_remove_sources_list_rpm carries an or-true guard, so it succeeds as a
no-op whatever the underlying commands report (in particular with no
matching repo on the remote); but remove does not — _remove_rpm checks
status without a guard, so it succeeds exactly when every underlying
zypper remove exits 0, and propagates the non-zero exit that zypper
reports for a package that is not installed. -/
theorem remove_tolerance_amended (proj : String) (exits : Nat → Nat) (rpm : List String) :
    runSeq exits (remove_sources_list_rpm_cmds proj) 0 = Except.ok () ∧
    (runSeq exits (remove_rpm_cmds rpm) 0 = Except.ok () ↔
      ∀ j, j < rpm.length → exits j = 0) := by
  constructor
  · apply runSeq_all_orTrue
    intro c hc
    by_cases hp : proj = "ceph"
    · simp [remove_sources_list_rpm_cmds, hp] at hc
      rcases hc with rfl | rfl | rfl | rfl | rfl <;> rfl
    · simp [remove_sources_list_rpm_cmds, hp] at hc
      rcases hc with rfl | rfl | rfl | rfl <;> rfl
  · have h := runSeq_unguarded exits
      (fun pkg => { cname := "zypper remove " ++ pkg, orTrue := false, checkStatus := true })
      (fun p => ⟨rfl, rfl⟩) rpm 0
    simpa [remove_rpm_cmds] using h

/-- Embedding of _get_baseurl (install.py lines 190-210): the repository
base URL formatted from the gitbuilder host, the configured project, the
remote's package type, and the probed dist, arch, flavor and artifact
reference segment. -/
def get_baseurl (host proj pkgType dist arch flavor uri : String) : String :=
  "http://" ++ host ++ "/" ++ proj ++ "-" ++ pkgType ++ "-" ++ dist ++ "-" ++ arch ++
    "-" ++ flavor ++ "/" ++ uri

/-- The URL probed by the version poller (install.py line 233): the base
URL with /version appended. -/
def version_probe_url (baseUrl : String) : String := baseUrl ++ "/version"

/-- Embedding of the URL built by the yum variant of
_update_rpm_package_list_and_install (install.py lines 389-390): the
project segment is the hardcoded literal ceph-rpm- and the dist slot is
filled with distro_release. -/
def rpm_install_start_of_url (host distroRelease arch flavor uri : String) : String :=
  "http://" ++ host ++ "/ceph-rpm-" ++ distroRelease ++ "-" ++ arch ++ "-" ++ flavor ++
    "/" ++ uri

/-- Repository layout convention written from the specification words
(section 6): http, the gitbuilder host, then
project-pkgtype-dist-arch-flavor, then the reference segment, then
/version. -/
def specRepoLayout (host proj pkgType dist arch flavor refSegment : String) : String :=
  "http://" ++ host ++ "/" ++ proj ++ "-" ++ pkgType ++ "-" ++ dist ++ "-" ++ arch ++
    "-" ++ flavor ++ "/" ++ refSegment ++ "/version"

/-- Counterexample to C8 at a concrete input: with configured project
samba, the URL the rpm install path fetches from is the hardcoded
ceph-rpm form, not the claimed shape carrying the configured project
name. -/
theorem rpm_install_url_ignores_project :
    rpm_install_start_of_url "gitbuilder.ceph.com" "centos7" "x86_64" "basic"
        "ref/master" ≠
      get_baseurl "gitbuilder.ceph.com" "samba" "rpm" "centos7" "x86_64" "basic"
        "ref/master" := by
  decide

/-- C8 amended: _get_baseurl reproduces the layout convention bit for
bit — probing its result appends exactly /version, giving the
specification's path shape with the configured project name in the path;
the rpm install path, however, coincides with that shape only with the
project hardcoded to ceph, the package type hardcoded to rpm, and
distro_release in the dist slot. -/
theorem base_url_shape_amended (host proj pkgType dist arch flavor uri dr : String) :
    version_probe_url (get_baseurl host proj pkgType dist arch flavor uri) =
      specRepoLayout host proj pkgType dist arch flavor uri ∧
    rpm_install_start_of_url host dr arch flavor uri =
      get_baseurl host "ceph" "rpm" dr arch flavor uri := by
  constructor
  · rfl
  · have seg : ∀ x : String, x ++ "/" ++ "ceph" ++ "-" ++ "rpm" ++ "-" = x ++ "/ceph-rpm-" := by
      intro x
      rw [String.append_assoc, String.append_assoc, String.append_assoc,
        String.append_assoc]
      exact congrArg (fun y => x ++ y) (by decide)
    unfold rpm_install_start_of_url get_baseurl
    rw [seg ("http://" ++ host)]

/-- The module-level rpm_packages dict (install.py lines 21-36): the
complete listing of ceph packages. -/
def ceph_rpm_base : List String :=
  ["ceph", "ceph-debuginfo", "ceph-radosgw", "ceph-test", "ceph-devel", "ceph-fuse",
    "ceph-deploy", "libcephfs1", "python-ceph", "rbd-fuse", "python-radosgw-agent",
    "python-virtualenv"]

/-- Initial state of the module-level rpm_packages global. -/
def rpm_packages_init : List (String × List String) := [("ceph", ceph_rpm_base)]

/-- Embedding of the package-list computation at the top of install
(install.py lines 770-783): rpm is bound to the global entry for the
project (or a fresh empty list), the in-place extend with extra_packages
mutates the very list object the global dict holds whenever the entry
exists, and the extras option then rebinds the local name only. Returns
the global dict state after the call and the package list the call
uses. -/
def install_compute_pkgs (globals : List (String × List String)) (project : String)
    (extraPkgs : List String) (extras : Bool) :
    List (String × List String) × List String :=
  let rpm0 := (lookupKV globals project).getD []
  let rpm1 := rpm0 ++ extraPkgs
  let globals1 :=
    if (lookupKV globals project).isSome then updateKV globals project rpm1 else globals
  let rpm2 :=
    if extras then ["ceph-fuse", "librbd1", "librados2", "ceph-test", "python-ceph"]
    else rpm1
  (globals1, rpm2)

/-- C9: each install call for project ceph extends the module-level
rpm_packages ceph list in place, so extra packages configured in one
call accumulate into the list seen by every subsequent call in the same
process — after a first call with extras e1, the global already holds
the base list extended with e1, a second call with extras e2 uses the
base list plus e1 plus e2, and leaves all of that in the global. -/
theorem rpm_packages_accumulates (e1 e2 : List String) :
    lookupKV (install_compute_pkgs rpm_packages_init "ceph" e1 false).1 "ceph" =
      some (ceph_rpm_base ++ e1) ∧
    (install_compute_pkgs (install_compute_pkgs rpm_packages_init "ceph" e1 false).1
        "ceph" e2 false).2 = ceph_rpm_base ++ e1 ++ e2 ∧
    lookupKV (install_compute_pkgs (install_compute_pkgs rpm_packages_init "ceph" e1
        false).1 "ceph" e2 false).1 "ceph" = some (ceph_rpm_base ++ e1 ++ e2) := by
  refine ⟨?_, ?_, ?_⟩ <;> simp [install_compute_pkgs, rpm_packages_init, lookupKV, updateKV]

/-- Witness for the amended C7 at a concrete input: with an underlying
transport reporting exit 0 throughout, both removeSources and remove
succeed. -/
theorem remove_tolerance_amended_witness :
    runSeq (fun x => 0) (remove_sources_list_rpm_cmds "ceph") 0 = Except.ok () ∧
    runSeq (fun x => 0) (remove_rpm_cmds ["ceph"]) 0 = Except.ok () :=
  ⟨(remove_tolerance_amended "ceph" (fun x => 0) ["ceph"]).1,
    (remove_tolerance_amended "ceph" (fun x => 0) ["ceph"]).2.mpr (fun j hj => rfl)⟩
